import Mathlib

/-!
Verification of the name-reference resolution filter of this repository
(package `nameref`). The filter implementation itself (the `Filter` type of
package `nameref` and its `run`/`set` methods) is not present in the source
tree; only its behavioral test suite `api/filters/nameref/nameref_test.go`
is. The definitions below therefore model the missing filter from the
specification, and every theorem is checked against the concrete scenarios
of the test file.
-/

namespace Nameref

/-- Modelled from the spec: a Group-Version-Kind type selector
(`resid.Gvk` in the source tests); the implementation holding it is the
missing `nameref.Filter`. Empty components act as wildcards. -/
structure Gvk where
  group : String
  version : String
  kind : String
deriving DecidableEq, Repr

/-- Modelled from the spec: component-wise GVK matching, treating an empty
target component as match-any (spec section 4.2); part of the missing
candidate-filtering step of `nameref.Filter`. -/
def Gvk.isSelected (target actual : Gvk) : Bool :=
  (target.group = "" || target.group = actual.group) &&
  (target.version = "" || target.version = actual.version) &&
  (target.kind = "" || target.kind = actual.kind)

/-- Modelled from the spec: a referral candidate of the missing
`nameref.Filter`, carrying its type, its current identity (the replacement
value) and its original identity (the matching key); spec section 3. -/
structure Candidate where
  gvk : Gvk
  curName : String
  curNamespace : String
  origName : String
  origNamespace : String
deriving DecidableEq, Repr

/-- Modelled from the spec: an addressable node of a parsed document
(spec section 3): a scalar string, a sequence, a mapping with ordered
unique keys, or a null value. -/
inductive Node where
  | scalar (s : String)
  | null
  | seq (elems : List Node)
  | map (fields : List (String × Node))

/-- The scalar string value of a node, if it is one. -/
def Node.scalarVal : Node → Option String
  | .scalar s => some s
  | _ => none

/-- Modelled from the spec: the error taxonomy of the missing
`nameref.Filter` (spec section 7): shape violation, missing `name` child
in a mapping location, and ambiguous reference carrying the matched value
and the competing candidates. -/
inductive RefError where
  | badShape
  | missingNameField
  | ambiguous (value : String) (cands : List Candidate)
deriving DecidableEq, Repr

/-- Modelled from the spec: the type-filtering step of the missing
`nameref.Filter` (spec section 4.2): only candidates whose GVK matches the
target selector are consulted. -/
def filterCandidates (target : Gvk) (cs : List Candidate) : List Candidate :=
  cs.filter (fun c => Gvk.isSelected target c.gvk)

/-- Modelled from the spec: the candidates whose original name equals the
value being resolved (spec section 4.3 step 2). -/
def matchesByName (cs : List Candidate) (v : String) : List Candidate :=
  cs.filter (fun c => c.origName = v)

/-- Modelled from the spec: the candidates whose original name and original
namespace equal the name and namespace found at a namespace-qualified
mapping location (spec section 4.3 step 2). -/
def matchesByFullName (cs : List Candidate) (v ns : String) : List Candidate :=
  cs.filter (fun c => c.origName = v && c.origNamespace = ns)

/-- Modelled from the spec: resolution of one scalar string value by the
missing `nameref.Filter` (spec section 4.3 step 3): zero matches leave the
value unchanged, a unique match rewrites to the current name, two or more
matches are a fatal ambiguity. -/
def resolveScalar (cs : List Candidate) (v : String) : Except RefError String :=
  match matchesByName cs v with
  | [] => .ok v
  | [c] => .ok c.curName
  | c1 :: c2 :: rest => .error (.ambiguous v (c1 :: c2 :: rest))

/-- Modelled from the spec: resolution of one element of a sequence
location; only scalar strings are acceptable there (spec sections 4.1
and 4.3). -/
def resolveSeqElem (cs : List Candidate) : Node → Except RefError Node
  | .scalar s => (resolveScalar cs s).map Node.scalar
  | _ => .error .badShape

/-- Modelled from the spec: elementwise resolution of a sequence location
by the missing `nameref.Filter`; each element is resolved independently
(spec section 4.3 step 4). -/
def resolveSeq (cs : List Candidate) : List Node → Except RefError (List Node)
  | [] => .ok []
  | e :: rest =>
    match resolveSeqElem cs e with
    | .error err => .error err
    | .ok e' =>
      match resolveSeq cs rest with
      | .error err => .error err
      | .ok rest' => .ok (e' :: rest')

/-- First field of a mapping bearing the given key, if any. -/
def lookupField : List (String × Node) → String → Option Node
  | [], _ => none
  | (k, v) :: rest, key => if k = key then some v else lookupField rest key

/-- Replace the value of the first field bearing the given key. -/
def setField : List (String × Node) → String → Node → List (String × Node)
  | [], _, _ => []
  | (k, v) :: rest, key, nv =>
    if k = key then (k, nv) :: rest else (k, v) :: setField rest key nv

/-- Modelled from the spec: resolution of a mapping location by the missing
`nameref.Filter` (spec sections 4.1 and 4.3): the mapping must contain a
scalar `name` child; when a scalar `namespace` child is present the match
key is the (name, namespace) pair against each candidate's original
identity, otherwise the name alone; a unique match rewrites `name` (and
`namespace`, when present) to the candidate's current identity. -/
def resolveMapping (cs : List Candidate) (fields : List (String × Node)) :
    Except RefError (List (String × Node)) :=
  match (lookupField fields "name").bind Node.scalarVal with
  | none => .error .missingNameField
  | some n =>
    match (lookupField fields "namespace").bind Node.scalarVal with
    | some ns =>
      match matchesByFullName cs n ns with
      | [] => .ok fields
      | [c] =>
        .ok (setField (setField fields "name" (.scalar c.curName))
              "namespace" (.scalar c.curNamespace))
      | c1 :: c2 :: rest => .error (.ambiguous n (c1 :: c2 :: rest))
    | none =>
      match matchesByName cs n with
      | [] => .ok fields
      | [c] => .ok (setField fields "name" (.scalar c.curName))
      | c1 :: c2 :: rest => .error (.ambiguous n (c1 :: c2 :: rest))

/-- Modelled from the spec: dispatch on the shape of the addressed node
(spec section 4.1): scalar strings, sequences and mappings are acceptable,
anything else (such as a null value) is a shape violation. -/
def resolveLocation (cs : List Candidate) : Node → Except RefError Node
  | .scalar s => (resolveScalar cs s).map Node.scalar
  | .seq es => (resolveSeq cs es).map Node.seq
  | .map fields => (resolveMapping cs fields).map Node.map
  | .null => .error .badShape

/-- Modelled from the spec: descent of the Path Selector into the referrer
document (spec section 4.1); a path segment that does not exist addresses
nothing and the document is returned unchanged without error. -/
def resolveAtPath (cs : List Candidate) : Node → List String → Except RefError Node
  | n, [] => resolveLocation cs n
  | Node.map fields, seg :: rest =>
    match lookupField fields seg with
    | none => .ok (Node.map fields)
    | some child =>
      match resolveAtPath cs child rest with
      | .error err => .error err
      | .ok child' => .ok (Node.map (setField fields seg child'))
  | n, _ :: _ => .ok n

/-- The node addressed by a path, if it exists. -/
def lookupPath : Node → List String → Option Node
  | n, [] => some n
  | Node.map fields, seg :: rest =>
    match lookupField fields seg with
    | none => none
    | some child => lookupPath child rest
  | _, _ :: _ => none

/-- The document with the node addressed by the path replaced. -/
def replaceAt : Node → List String → Node → Node
  | _, [], nv => nv
  | Node.map fields, seg :: rest, nv =>
    match lookupField fields seg with
    | none => Node.map fields
    | some child => Node.map (setField fields seg (replaceAt child rest nv))
  | n, _ :: _, _ => n

/-- Splitting of a slash-delimited field path into segments, over the
character list of the string. -/
def splitPathAux : List Char → List Char → List String
  | [], acc => [String.mk acc.reverse]
  | c :: rest, acc =>
    if c = Char.ofNat 47 then String.mk acc.reverse :: splitPathAux rest []
    else splitPathAux rest (c :: acc)

/-- Modelled from the spec: the Path Selector parses a slash-delimited
field path (spec section 2). -/
def splitPath (p : String) : List String :=
  splitPathAux p.data []

/-- Modelled from the spec: the field-spec of the missing `nameref.Filter`
(`types.FieldSpec` in the source tests), holding the slash-delimited
path. -/
structure FieldSpec where
  path : String

/-- Modelled from the spec: the missing `nameref.Filter` value: a field
spec, a target GVK selector, the identity string of the referrer (empty
when unset) and the referral candidates. -/
structure Filter where
  fieldSpec : FieldSpec
  target : Gvk
  referrerId : String
  referralCandidates : List Candidate

/-- Modelled from the spec: one invocation of the missing `nameref.Filter`
on a referrer document: a pure function from the document to either the
mutated document or a fatal error (spec section 2). -/
def applyFilter (f : Filter) (doc : Node) : Except RefError Node :=
  resolveAtPath (filterCandidates f.target f.referralCandidates) doc
    (splitPath f.fieldSpec.path)

/-- An apostrophe, as a one-character string. -/
def sq : String := String.singleton (Char.ofNat 39)

/-- The fixed trailer of the shape-violation diagnostic, as observed in the
test suite. -/
def shapeErrorTrailer : String :=
  "node is expected to be either a string or a slice of string or a map of string"

/-- Modelled from the spec: the Diagnostic Reporter (spec section 4.4)
renders each fatal error with the referrer identity and the failing
path. -/
def errorMessage (referrerId path : String) : RefError → String
  | .badShape =>
    "obj " ++ sq ++ referrerId ++ sq ++ " at path " ++ sq ++ path ++ sq ++
      ": " ++ shapeErrorTrailer
  | .missingNameField =>
    "obj " ++ sq ++ referrerId ++ sq ++ " at path " ++ sq ++ path ++ sq ++
      ": cannot find field name in node"
  | .ambiguous v ms =>
    "obj " ++ sq ++ referrerId ++ sq ++ " at path " ++ sq ++ path ++ sq ++
      ": multiple matches for original name " ++ sq ++ v ++ sq ++ ": " ++
      String.intercalate ", " (ms.map (fun c => c.curName))

/-- The match value and the competing candidate set consulted at a scalar
or mapping location: for a scalar the value itself and its name matches,
for a mapping with a scalar `name` child the name value together with the
pair matches when a scalar `namespace` child is present and the name
matches otherwise. -/
def locationKey (cs : List Candidate) : Node → Option (String × List Candidate)
  | .scalar v => some (v, matchesByName cs v)
  | .map fields =>
    match (lookupField fields "name").bind Node.scalarVal with
    | none => none
    | some n =>
      match (lookupField fields "namespace").bind Node.scalarVal with
      | some ns => some (n, matchesByFullName cs n ns)
      | none => some (n, matchesByName cs n)
  | _ => none

/-- Modelled from the spec: the referrer value observed by the caller after
an invocation of the missing `nameref.Filter` (spec sections 3 and 7): the
mutated tree on success, the unchanged pre-call tree on failure. -/
def observedReferrer (doc : Node) (r : Except RefError Node) : Node :=
  match r with
  | .ok out => out
  | .error _ => doc

/-! Concrete fixtures transcribed from `api/filters/nameref/nameref_test.go`. -/

/-- The target GVK `{apps, v1, Secret}` used by every test case. -/
def secretGvk : Gvk := ⟨"apps", "v1", "Secret"⟩

/-- The Secret candidate of the happy-path tests: current name `newName`,
original name `oldName`. -/
def secretCandidate : Candidate := ⟨secretGvk, "newName", "", "oldName", ""⟩

/-- The wrong-type candidate of the happy-path tests: kind `NotSecret`,
current name `newName2`, original name empty. -/
def notSecretCandidate : Candidate :=
  ⟨⟨"apps", "v1", "NotSecret"⟩, "newName2", "", "", ""⟩

/-- The referrer document of the simple-scalar test. -/
def scalarDoc : Node := .map [
  ("apiVersion", .scalar "apps/v1"),
  ("kind", .scalar "Deployment"),
  ("metadata", .map [("name", .scalar "dep")]),
  ("ref", .map [("name", .scalar "oldName")])]

/-- The expected output of the simple-scalar test. -/
def scalarDocExpected : Node := .map [
  ("apiVersion", .scalar "apps/v1"),
  ("kind", .scalar "Deployment"),
  ("metadata", .map [("name", .scalar "dep")]),
  ("ref", .map [("name", .scalar "newName")])]

/-- The filter of the simple-scalar test. -/
def scalarFilter : Filter :=
  ⟨⟨"ref/name"⟩, secretGvk, "", [secretCandidate, notSecretCandidate]⟩

/-- The referrer document of the sequence test: two scalar elements. -/
def seqDoc : Node := .map [
  ("apiVersion", .scalar "apps/v1"),
  ("kind", .scalar "Deployment"),
  ("metadata", .map [("name", .scalar "dep")]),
  ("seq", .seq [.scalar "oldName1", .scalar "oldName2"])]

/-- The Secret candidate of the sequence test: original name `oldName1`. -/
def seqCandidate : Candidate := ⟨secretGvk, "newName", "", "oldName1", ""⟩

/-- The filter of the sequence test. -/
def seqFilter : Filter :=
  ⟨⟨"seq"⟩, secretGvk, "", [seqCandidate, notSecretCandidate]⟩

/-- The Secret candidate of the mapping-with-namespace test: renamed from
`oldName` to `newName`, namespace `oldNs` unchanged. -/
def nsSecretCandidate : Candidate :=
  ⟨secretGvk, "newName", "oldNs", "oldName", "oldNs"⟩

/-- The referrer document of the mapping-with-namespace test. -/
def nsMapDoc : Node := .map [
  ("apiVersion", .scalar "apps/v1"),
  ("kind", .scalar "Deployment"),
  ("metadata", .map [("name", .scalar "dep")]),
  ("map", .map [("name", .scalar "oldName"), ("namespace", .scalar "oldNs")])]

/-- The filter of the mapping-with-namespace test. -/
def nsMapFilter : Filter :=
  ⟨⟨"map"⟩, secretGvk, "", [nsSecretCandidate, notSecretCandidate]⟩

/-- The referrer document of the invalid-node-type test: a null value at
the addressed path. -/
def nullDoc : Node := .map [
  ("apiVersion", .scalar "apps/v1"),
  ("kind", .scalar "Deployment"),
  ("metadata", .map [("name", .scalar "dep")]),
  ("ref", .map [("name", .null)])]

/-- The filter of the invalid-node-type test: an empty candidate list. -/
def nullFilter : Filter := ⟨⟨"ref/name"⟩, secretGvk, "", []⟩

/-- The second Secret of the multiple-match test: current name `newName2`,
original name `oldName` shared with `secretCandidate`. -/
def secondSecretCandidate : Candidate := ⟨secretGvk, "newName2", "", "oldName", ""⟩

/-- The filter of the multiple-match test: two Secrets sharing the
original name `oldName`. -/
def multiFilter : Filter :=
  ⟨⟨"ref/name"⟩, secretGvk, "", [secretCandidate, secondSecretCandidate]⟩

/-- The referrer document of the no-name test: the addressed mapping has a
`notName` child but no `name` child. -/
def noNameDoc : Node := .map [
  ("apiVersion", .scalar "apps/v1"),
  ("kind", .scalar "Deployment"),
  ("metadata", .map [("name", .scalar "dep")]),
  ("ref", .map [("notName", .scalar "oldName")])]

/-- The filter of the no-name test: two Secrets sharing the original name
`oldName`, path addressing the mapping itself. -/
def noNameFilter : Filter :=
  ⟨⟨"ref"⟩, secretGvk, "", [secretCandidate, secondSecretCandidate]⟩

/-- A referrer document whose reference value matches no candidate. -/
def noMatchDoc : Node := .map [
  ("ref", .map [("name", .scalar "otherName")])]

/-- A Secret candidate in namespace `n1`, renamed from `shared` to `newA`,
namespace unchanged. -/
def pairCandA : Candidate := ⟨secretGvk, "newA", "n1", "shared", "n1"⟩

/-- A Secret candidate in namespace `n2`, renamed from `shared` to `newB`,
namespace unchanged. -/
def pairCandB : Candidate := ⟨secretGvk, "newB", "n2", "shared", "n2"⟩

/-- A referrer whose addressed mapping names `shared` in namespace `n1`. -/
def pairDoc : Node := .map [
  ("ref", .map [("name", .scalar "shared"), ("namespace", .scalar "n1")])]

/-- The resolution of `pairDoc`: the namespace disambiguates the two
candidates sharing the original name `shared`. -/
def pairDocResolved : Node := .map [
  ("ref", .map [("name", .scalar "newA"), ("namespace", .scalar "n1")])]

/-- The filter over the two namespace-distinguished candidates. -/
def pairFilter : Filter := ⟨⟨"ref"⟩, secretGvk, "", [pairCandA, pairCandB]⟩

/-- The multiple-match filter with its candidate list reversed. -/
def multiFilterSwapped : Filter :=
  ⟨⟨"ref/name"⟩, secretGvk, "", [secondSecretCandidate, secretCandidate]⟩

/-- The expected output of the sequence test: the first element rewritten,
the second untouched. -/
def seqDocExpected : Node := .map [
  ("apiVersion", .scalar "apps/v1"),
  ("kind", .scalar "Deployment"),
  ("metadata", .map [("name", .scalar "dep")]),
  ("seq", .seq [.scalar "newName", .scalar "oldName2"])]

/-- The expected output of the mapping-with-namespace test: only the name
child changes. -/
def nsMapDocExpected : Node := .map [
  ("apiVersion", .scalar "apps/v1"),
  ("kind", .scalar "Deployment"),
  ("metadata", .map [("name", .scalar "dep")]),
  ("map", .map [("name", .scalar "newName"), ("namespace", .scalar "oldNs")])]

/-- The simple-scalar filter with its candidate list reversed. -/
def scalarFilterSwapped : Filter :=
  ⟨⟨"ref/name"⟩, secretGvk, "", [notSecretCandidate, secretCandidate]⟩

/-- A referrer whose addressed sequence mixes a scalar that two candidates
claim with a null element. -/
def hetSeqDoc : Node := .map [("seq", .seq [.scalar "oldName", .null])]

/-- A referrer whose addressed sequence mixes an unclaimed scalar with a
null element. -/
def noAmbSeqDoc : Node := .map [("seq", .seq [.scalar "unmatched", .null])]

/-- The multiple-match registry pointed at the `seq` path. -/
def hetSeqFilter : Filter :=
  ⟨⟨"seq"⟩, secretGvk, "", [secretCandidate, secondSecretCandidate]⟩

/-! Structural lemmas about field and path access. -/

theorem replaceAt_nil (doc nv : Node) : replaceAt doc [] nv = nv := by
  cases doc <;> rfl

theorem lookupPath_nil (doc : Node) : lookupPath doc [] = some doc := by
  cases doc <;> rfl

theorem resolveAtPath_nil (cs : List Candidate) (doc : Node) :
    resolveAtPath cs doc [] = resolveLocation cs doc := by
  cases doc <;> rfl

theorem lookupField_setField_self (k : String) (v : Node) :
    ∀ (fields : List (String × Node)), lookupField fields k = some v →
      setField fields k v = fields := by
  intro fields
  induction fields with
  | nil => intro h; simp [lookupField] at h
  | cons p rest ih =>
    intro h
    obtain ⟨pk, pv⟩ := p
    by_cases hk : pk = k
    · subst hk
      have hpv : pv = v := by simpa [lookupField] using h
      subst hpv
      simp [setField]
    · simp only [lookupField, if_neg hk] at h
      simp [setField, hk, ih h]

theorem lookupField_setField_eq (k : String) (nv : Node) :
    ∀ (fields : List (String × Node)) (v : Node), lookupField fields k = some v →
      lookupField (setField fields k nv) k = some nv := by
  intro fields
  induction fields with
  | nil => intro v h; simp [lookupField] at h
  | cons p rest ih =>
    intro v h
    obtain ⟨pk, pv⟩ := p
    by_cases hk : pk = k
    · subst hk
      simp [setField, lookupField]
    · simp only [lookupField, if_neg hk] at h
      simp only [setField, if_neg hk, lookupField, if_neg hk]
      exact ih v h

theorem lookupField_setField_ne (k key : String) (nv : Node) (hne : k ≠ key) :
    ∀ (fields : List (String × Node)),
      lookupField (setField fields k nv) key = lookupField fields key := by
  intro fields
  induction fields with
  | nil => simp [setField, lookupField]
  | cons p rest ih =>
    obtain ⟨pk, pv⟩ := p
    by_cases hk : pk = k
    · subst hk
      simp only [setField, if_pos rfl]
      simp only [lookupField, if_neg hne]
    · simp only [setField, if_neg hk, lookupField]
      by_cases hkey : pk = key
      · simp [hkey]
      · simp only [if_neg hkey]
        exact ih

theorem replaceAt_self : ∀ (segs : List String) (doc loc : Node),
    lookupPath doc segs = some loc → replaceAt doc segs loc = doc := by
  intro segs
  induction segs with
  | nil =>
    intro doc loc h
    simp only [lookupPath, Option.some.injEq] at h
    subst h
    cases doc <;> rfl
  | cons seg rest ih =>
    intro doc loc h
    cases doc with
    | map fields =>
      cases hf : lookupField fields seg with
      | none => simp [lookupPath, hf] at h
      | some child =>
        simp only [lookupPath, hf] at h
        simp only [replaceAt, hf]
        rw [ih child loc h, lookupField_setField_self seg child fields hf]
    | scalar s => simp [lookupPath] at h
    | null => simp [lookupPath] at h
    | seq es => simp [lookupPath] at h

theorem lookupPath_replaceAt : ∀ (segs : List String) (doc loc nv : Node),
    lookupPath doc segs = some loc →
      lookupPath (replaceAt doc segs nv) segs = some nv := by
  intro segs
  induction segs with
  | nil => intro doc loc nv _; rw [replaceAt_nil, lookupPath_nil]
  | cons seg rest ih =>
    intro doc loc nv h
    cases doc with
    | map fields =>
      cases hf : lookupField fields seg with
      | none => simp [lookupPath, hf] at h
      | some child =>
        simp only [lookupPath, hf] at h
        simp only [replaceAt, hf, lookupPath]
        rw [lookupField_setField_eq seg (replaceAt child rest nv) fields child hf]
        exact ih child loc nv h
    | scalar s => simp [lookupPath] at h
    | null => simp [lookupPath] at h
    | seq es => simp [lookupPath] at h

theorem resolveAtPath_found (cs : List Candidate) : ∀ (segs : List String) (doc loc : Node),
    lookupPath doc segs = some loc →
    resolveAtPath cs doc segs = (resolveLocation cs loc).map (replaceAt doc segs) := by
  intro segs
  induction segs with
  | nil =>
    intro doc loc h
    simp only [lookupPath, Option.some.injEq] at h
    subst h
    simp only [resolveAtPath]
    cases hr : resolveLocation cs doc with
    | error e => rfl
    | ok a =>
      simp only [Except.map]
      cases doc <;> rfl
  | cons seg rest ih =>
    intro doc loc h
    cases doc with
    | map fields =>
      cases hf : lookupField fields seg with
      | none => simp [lookupPath, hf] at h
      | some child =>
        simp only [lookupPath, hf] at h
        simp only [resolveAtPath, hf]
        rw [ih child loc h]
        cases resolveLocation cs loc with
        | error e => rfl
        | ok loc' =>
          simp only [Except.map]
          simp only [replaceAt, hf]
    | scalar s => simp [lookupPath] at h
    | null => simp [lookupPath] at h
    | seq es => simp [lookupPath] at h

/-! Elementwise description of successful sequence resolution. -/

theorem resolveSeq_ok (cs : List Candidate) : ∀ (es es' : List Node),
    resolveSeq cs es = .ok es' →
    es'.length = es.length ∧
    ∀ i (hi : i < es.length) (hi' : i < es'.length),
      resolveSeqElem cs (es.get ⟨i, hi⟩) = .ok (es'.get ⟨i, hi'⟩) := by
  intro es
  induction es with
  | nil =>
    intro es' h
    simp only [resolveSeq] at h
    cases h
    exact ⟨rfl, fun i hi _ => absurd hi (Nat.not_lt_zero i)⟩
  | cons e rest ih =>
    intro es' h
    cases he : resolveSeqElem cs e with
    | error err => simp [resolveSeq, he] at h
    | ok e1 =>
      cases hr : resolveSeq cs rest with
      | error err => simp [resolveSeq, he, hr] at h
      | ok rest' =>
        simp only [resolveSeq, he, hr] at h
        cases h
        obtain ⟨hlen, helem⟩ := ih rest' hr
        refine ⟨by simp [hlen], ?_⟩
        intro i hi hi'
        cases i with
        | zero => exact he
        | succ n =>
          simp only [List.get_cons_succ]
          exact helem n (Nat.lt_of_succ_lt_succ hi) (Nat.lt_of_succ_lt_succ hi')

/-- A sequence containing a non-scalar element fails with the shape error,
provided every earlier element is a scalar matching at most one
candidate (so that no other failure intervenes first). -/
theorem resolveSeq_badShape (cs : List Candidate) :
    ∀ (es : List Node) (i : Nat) (hi : i < es.length),
    (es.get ⟨i, hi⟩).scalarVal = none →
    (∀ j (hj : j < i), ∃ w, es.get ⟨j, Nat.lt_trans hj hi⟩ = Node.scalar w ∧
      (matchesByName cs w).length ≤ 1) →
    resolveSeq cs es = .error .badShape := by
  intro es
  induction es with
  | nil => intro i hi; exact absurd hi (Nat.not_lt_zero i)
  | cons e rest ih =>
    intro i hi hnot hpre
    cases i with
    | zero =>
      have he : resolveSeqElem cs e = .error .badShape := by
        cases e with
        | scalar s => simp [Node.scalarVal] at hnot
        | null => rfl
        | seq es2 => rfl
        | map fs => rfl
      simp [resolveSeq, he]
    | succ n =>
      obtain ⟨w, hw, hm⟩ := hpre 0 (Nat.succ_pos n)
      have hew : e = Node.scalar w := by simpa using hw
      subst hew
      have hok : ∃ w', resolveSeqElem cs (Node.scalar w) = .ok (Node.scalar w') := by
        cases h1 : matchesByName cs w with
        | nil => exact ⟨w, by simp [resolveSeqElem, resolveScalar, h1, Except.map]⟩
        | cons c tail =>
          cases tail with
          | nil =>
            exact ⟨c.curName, by simp [resolveSeqElem, resolveScalar, h1, Except.map]⟩
          | cons c2 tail2 => rw [h1] at hm; simp at hm
      obtain ⟨w', hok⟩ := hok
      have hrest : resolveSeq cs rest = .error .badShape := by
        apply ih n (Nat.lt_of_succ_lt_succ hi)
        · simpa using hnot
        · intro j hj
          obtain ⟨u, hu, hmu⟩ := hpre (j + 1) (Nat.succ_lt_succ hj)
          exact ⟨u, by simpa using hu, hmu⟩
      simp [resolveSeq, hok, hrest]

/-! Invariance of successful resolution under permutation of the
candidate list. -/

theorem resolveScalar_perm {cs1 cs2 : List Candidate} (h : cs1.Perm cs2) (v w : String)
    (hok : resolveScalar cs1 v = .ok w) : resolveScalar cs2 v = .ok w := by
  have hp : (matchesByName cs1 v).Perm (matchesByName cs2 v) := h.filter _
  unfold resolveScalar at hok ⊢
  cases h1 : matchesByName cs1 v with
  | nil =>
    rw [h1] at hp hok
    rw [hp.nil_eq.symm]
    exact hok
  | cons c tail =>
    cases tail with
    | nil =>
      rw [h1] at hp hok
      rw [List.perm_singleton.mp hp.symm]
      exact hok
    | cons c2 tail2 =>
      rw [h1] at hok
      simp at hok

theorem resolveSeqElem_perm {cs1 cs2 : List Candidate} (h : cs1.Perm cs2) (n out : Node)
    (hok : resolveSeqElem cs1 n = .ok out) : resolveSeqElem cs2 n = .ok out := by
  cases n with
  | scalar s =>
    simp only [resolveSeqElem] at hok ⊢
    cases hs : resolveScalar cs1 s with
    | error e => rw [hs] at hok; simp [Except.map] at hok
    | ok w =>
      rw [hs] at hok
      rw [resolveScalar_perm h s w hs]
      exact hok
  | null => simp [resolveSeqElem] at hok
  | seq es => simp [resolveSeqElem] at hok
  | map fs => simp [resolveSeqElem] at hok

theorem resolveSeq_perm {cs1 cs2 : List Candidate} (h : cs1.Perm cs2) :
    ∀ (es es' : List Node), resolveSeq cs1 es = .ok es' → resolveSeq cs2 es = .ok es' := by
  intro es
  induction es with
  | nil => intro es' hok; exact hok
  | cons e rest ih =>
    intro es' hok
    cases he : resolveSeqElem cs1 e with
    | error err => simp [resolveSeq, he] at hok
    | ok e1 =>
      cases hr : resolveSeq cs1 rest with
      | error err => simp [resolveSeq, he, hr] at hok
      | ok rest' =>
        simp only [resolveSeq, he, hr] at hok
        simp only [resolveSeq, resolveSeqElem_perm h e e1 he, ih rest' hr]
        exact hok

theorem perm_match_cases {m1 m2 : List Candidate} (hp : m1.Perm m2) :
    (m1 = [] ∧ m2 = []) ∨ (∃ c, m1 = [c] ∧ m2 = [c]) ∨
    (∃ a b r a2 b2 r2, m1 = a :: b :: r ∧ m2 = a2 :: b2 :: r2) := by
  cases m1 with
  | nil => exact Or.inl ⟨rfl, hp.nil_eq.symm⟩
  | cons c tail =>
    cases tail with
    | nil => exact Or.inr (Or.inl ⟨c, rfl, List.perm_singleton.mp hp.symm⟩)
    | cons c2 t2 =>
      cases hm2 : m2 with
      | nil =>
        rw [hm2] at hp
        have := hp.length_eq
        simp at this
      | cons d t =>
        cases t with
        | nil =>
          rw [hm2] at hp
          have := hp.length_eq
          simp at this
        | cons d2 t2a => exact Or.inr (Or.inr ⟨c, c2, t2, d, d2, t2a, rfl, rfl⟩)

theorem resolveMapping_perm {cs1 cs2 : List Candidate} (h : cs1.Perm cs2)
    (fields fields' : List (String × Node))
    (hok : resolveMapping cs1 fields = .ok fields') :
    resolveMapping cs2 fields = .ok fields' := by
  cases hn : (lookupField fields "name").bind Node.scalarVal with
  | none => simp [resolveMapping, hn] at hok
  | some n =>
    cases hns : (lookupField fields "namespace").bind Node.scalarVal with
    | some ns =>
      simp only [resolveMapping, hn, hns] at hok ⊢
      have hp : (matchesByFullName cs1 n ns).Perm (matchesByFullName cs2 n ns) :=
        h.filter _
      rcases perm_match_cases hp with ⟨h1, h2⟩ | ⟨c, h1, h2⟩ | ⟨a, b, r, a2, b2, r2, h1, h2⟩
      · rw [h1] at hok
        rw [h2]
        exact hok
      · rw [h1] at hok
        rw [h2]
        exact hok
      · rw [h1] at hok
        simp at hok
    | none =>
      simp only [resolveMapping, hn, hns] at hok ⊢
      have hp : (matchesByName cs1 n).Perm (matchesByName cs2 n) := h.filter _
      rcases perm_match_cases hp with ⟨h1, h2⟩ | ⟨c, h1, h2⟩ | ⟨a, b, r, a2, b2, r2, h1, h2⟩
      · rw [h1] at hok
        rw [h2]
        exact hok
      · rw [h1] at hok
        rw [h2]
        exact hok
      · rw [h1] at hok
        simp at hok

theorem resolveLocation_perm {cs1 cs2 : List Candidate} (h : cs1.Perm cs2) (n out : Node)
    (hok : resolveLocation cs1 n = .ok out) : resolveLocation cs2 n = .ok out := by
  cases n with
  | scalar s =>
    simp only [resolveLocation] at hok ⊢
    cases hs : resolveScalar cs1 s with
    | error e => rw [hs] at hok; simp [Except.map] at hok
    | ok w =>
      rw [hs] at hok
      rw [resolveScalar_perm h s w hs]
      exact hok
  | seq es =>
    simp only [resolveLocation] at hok ⊢
    cases hs : resolveSeq cs1 es with
    | error e => rw [hs] at hok; simp [Except.map] at hok
    | ok es' =>
      rw [hs] at hok
      rw [resolveSeq_perm h es es' hs]
      exact hok
  | map fs =>
    simp only [resolveLocation] at hok ⊢
    cases hs : resolveMapping cs1 fs with
    | error e => rw [hs] at hok; simp [Except.map] at hok
    | ok fs' =>
      rw [hs] at hok
      rw [resolveMapping_perm h fs fs' hs]
      exact hok
  | null => simp [resolveLocation] at hok

theorem resolveAtPath_perm {cs1 cs2 : List Candidate} (h : cs1.Perm cs2) :
    ∀ (segs : List String) (doc out : Node),
    resolveAtPath cs1 doc segs = .ok out → resolveAtPath cs2 doc segs = .ok out := by
  intro segs
  induction segs with
  | nil =>
    intro doc out hok
    rw [resolveAtPath_nil] at hok ⊢
    exact resolveLocation_perm h doc out hok
  | cons seg rest ih =>
    intro doc out hok
    cases doc with
    | map fields =>
      cases hf : lookupField fields seg with
      | none =>
        simp only [resolveAtPath, hf] at hok ⊢
        exact hok
      | some child =>
        simp only [resolveAtPath, hf] at hok ⊢
        cases hr : resolveAtPath cs1 child rest with
        | error e => rw [hr] at hok; simp at hok
        | ok child' =>
          rw [hr] at hok
          rw [ih child child' hr]
          exact hok
    | scalar s => exact hok
    | null => exact hok
    | seq es => exact hok

/-! Bridging lemmas between the location match key and the resolver. -/

theorem matchesByFullName_nil (cs : List Candidate) (v ns : String)
    (h : matchesByName cs v = []) : matchesByFullName cs v ns = [] := by
  unfold matchesByName at h
  unfold matchesByFullName
  rw [List.filter_eq_nil_iff] at h ⊢
  intro c hc
  have hnc := h c hc
  simp only [decide_eq_true_eq] at hnc
  simp [hnc]

theorem resolveLocation_ambiguous (cs : List Candidate) (loc : Node) (v : String)
    (ms : List Candidate) (h2 : locationKey cs loc = some (v, ms)) (h3 : 2 ≤ ms.length) :
    resolveLocation cs loc = .error (.ambiguous v ms) := by
  cases loc with
  | scalar s =>
    simp only [locationKey, Option.some.injEq, Prod.mk.injEq] at h2
    obtain ⟨hv, hms⟩ := h2
    subst hv
    cases h1 : matchesByName cs s with
    | nil => rw [h1] at hms; subst hms; simp at h3
    | cons c tail =>
      cases tail with
      | nil => rw [h1] at hms; subst hms; simp at h3
      | cons c2 tail2 =>
        rw [h1] at hms
        subst hms
        simp [resolveLocation, resolveScalar, h1, Except.map]
  | map fields =>
    cases hn : (lookupField fields "name").bind Node.scalarVal with
    | none => simp [locationKey, hn] at h2
    | some n =>
      cases hns : (lookupField fields "namespace").bind Node.scalarVal with
      | some ns =>
        simp only [locationKey, hn, hns, Option.some.injEq, Prod.mk.injEq] at h2
        obtain ⟨hv, hms⟩ := h2
        subst hv
        cases h1 : matchesByFullName cs n ns with
        | nil => rw [h1] at hms; subst hms; simp at h3
        | cons c tail =>
          cases tail with
          | nil => rw [h1] at hms; subst hms; simp at h3
          | cons c2 tail2 =>
            rw [h1] at hms
            subst hms
            simp [resolveLocation, resolveMapping, hn, hns, h1, Except.map]
      | none =>
        simp only [locationKey, hn, hns, Option.some.injEq, Prod.mk.injEq] at h2
        obtain ⟨hv, hms⟩ := h2
        subst hv
        cases h1 : matchesByName cs n with
        | nil => rw [h1] at hms; subst hms; simp at h3
        | cons c tail =>
          cases tail with
          | nil => rw [h1] at hms; subst hms; simp at h3
          | cons c2 tail2 =>
            rw [h1] at hms
            subst hms
            simp [resolveLocation, resolveMapping, hn, hns, h1, Except.map]
  | null => simp [locationKey] at h2
  | seq es => simp [locationKey] at h2

theorem resolveLocation_no_match (cs : List Candidate) (loc : Node) (v : String)
    (ms : List Candidate) (h2 : locationKey cs loc = some (v, ms))
    (h3 : matchesByName cs v = []) :
    resolveLocation cs loc = .ok loc := by
  cases loc with
  | scalar s =>
    simp only [locationKey, Option.some.injEq, Prod.mk.injEq] at h2
    obtain ⟨hv, hms⟩ := h2
    subst hv
    simp [resolveLocation, resolveScalar, h3, Except.map]
  | map fields =>
    cases hn : (lookupField fields "name").bind Node.scalarVal with
    | none => simp [locationKey, hn] at h2
    | some n =>
      cases hns : (lookupField fields "namespace").bind Node.scalarVal with
      | some ns =>
        simp only [locationKey, hn, hns, Option.some.injEq, Prod.mk.injEq] at h2
        obtain ⟨hv, hms⟩ := h2
        subst hv
        simp [resolveLocation, resolveMapping, hn, hns, matchesByFullName_nil cs n ns h3,
          Except.map]
      | none =>
        simp only [locationKey, hn, hns, Option.some.injEq, Prod.mk.injEq] at h2
        obtain ⟨hv, hms⟩ := h2
        subst hv
        simp [resolveLocation, resolveMapping, hn, hns, h3, Except.map]
  | null => simp [locationKey] at h2
  | seq es => simp [locationKey] at h2

/-! Claim theorems. -/

/-- C1: for a referrer whose scalar field at path `ref/name` equals
`oldName`, target type `{apps, v1, Secret}`, and a registry holding one
Secret renamed `oldName` to `newName` plus one NotSecret with current name
`newName2`, resolution succeeds and rewrites the field to `newName`; the
wrong-type candidate is excluded by type filtering and its removal does not
change the outcome. -/
theorem scalar_rewrite_ignores_wrong_type :
    applyFilter scalarFilter scalarDoc = .ok scalarDocExpected ∧
    filterCandidates scalarFilter.target scalarFilter.referralCandidates =
      [secretCandidate] ∧
    applyFilter ⟨⟨"ref/name"⟩, secretGvk, "", [secretCandidate]⟩ scalarDoc =
      .ok scalarDocExpected :=
  ⟨rfl, rfl, rfl⟩

/-- C2 (counterexample): two type-matching candidates share the original
name `shared`, equal to the referrer's field value, yet the call succeeds —
the namespace child disambiguates them — so the claim as stated is false. -/
theorem ambiguity_claim_counterexample :
    2 ≤ (matchesByName (filterCandidates pairFilter.target
      pairFilter.referralCandidates) "shared").length ∧
    lookupField [("name", Node.scalar "shared"), ("namespace", Node.scalar "n1")]
      "name" = some (.scalar "shared") ∧
    applyFilter pairFilter pairDoc = .ok pairDocResolved :=
  ⟨by decide, rfl, rfl⟩

/-- C2 (amended): for every resolution in which two or more type-matching
candidates share the full match key of the location — the original name
equal to the field's value, together with the original namespace when the
location carries a scalar namespace child — the call fails with an
ambiguity error that identifies the field (the rendered diagnostic carries
the path), the original value, and the competing candidate identities;
the resolver never silently picks one. -/
theorem ambiguous_reference_fatal (f : Filter) (doc loc : Node) (v : String)
    (ms : List Candidate)
    (h1 : lookupPath doc (splitPath f.fieldSpec.path) = some loc)
    (h2 : locationKey (filterCandidates f.target f.referralCandidates) loc = some (v, ms))
    (h3 : 2 ≤ ms.length) :
    applyFilter f doc = .error (.ambiguous v ms) ∧
    errorMessage f.referrerId f.fieldSpec.path (.ambiguous v ms) =
      "obj " ++ sq ++ f.referrerId ++ sq ++ " at path " ++ sq ++
        f.fieldSpec.path ++ sq ++ ": multiple matches for original name " ++
        sq ++ v ++ sq ++ ": " ++
        String.intercalate ", " (ms.map (fun c => c.curName)) := by
  refine ⟨?_, rfl⟩
  unfold applyFilter
  rw [resolveAtPath_found _ _ doc loc h1]
  rw [resolveLocation_ambiguous _ loc v ms h2 h3]
  rfl

/-- Witness for C2: the multiple-match test scenario — two Secrets renamed
from `oldName` — fails with the ambiguity error listing both, and the
rendered diagnostic names the path `ref/name`, the original value
`oldName` and both competing current names. -/
theorem ambiguous_reference_fatal_witness :
    lookupPath scalarDoc (splitPath multiFilter.fieldSpec.path) =
      some (.scalar "oldName") ∧
    locationKey (filterCandidates multiFilter.target multiFilter.referralCandidates)
      (.scalar "oldName") = some ("oldName", [secretCandidate, secondSecretCandidate]) ∧
    applyFilter multiFilter scalarDoc =
      .error (.ambiguous "oldName" [secretCandidate, secondSecretCandidate]) ∧
    errorMessage multiFilter.referrerId multiFilter.fieldSpec.path
      (.ambiguous "oldName" [secretCandidate, secondSecretCandidate]) = String.mk
      [ 'o', 'b', 'j', ' ', Char.ofNat 39, Char.ofNat 39, ' ', 'a', 't',
       ' ', 'p', 'a', 't', 'h', ' ', Char.ofNat 39, 'r', 'e', 'f', '/', 'n',
       'a', 'm', 'e', Char.ofNat 39, ':', ' ', 'm', 'u', 'l', 't', 'i', 'p',
       'l', 'e', ' ', 'm', 'a', 't', 'c', 'h', 'e', 's', ' ', 'f', 'o', 'r',
       ' ', 'o', 'r', 'i', 'g', 'i', 'n', 'a', 'l', ' ', 'n', 'a', 'm', 'e',
       ' ', Char.ofNat 39, 'o', 'l', 'd', 'N', 'a', 'm', 'e', Char.ofNat 39,
       ':', ' ', 'n', 'e', 'w', 'N', 'a', 'm', 'e', ',', ' ', 'n', 'e', 'w',
       'N', 'a', 'm', 'e', '2'] := by
  obtain ⟨ha, hb⟩ := ambiguous_reference_fatal multiFilter scalarDoc
    (.scalar "oldName") "oldName" [secretCandidate, secondSecretCandidate]
    rfl rfl (by decide)
  exact ⟨rfl, rfl, ha, by decide⟩

/-- C3: when no type-matching candidate has an original name equal to the
field's value, the call succeeds and the document is left unchanged. -/
theorem zero_match_no_op (f : Filter) (doc loc : Node) (v : String)
    (ms : List Candidate)
    (h1 : lookupPath doc (splitPath f.fieldSpec.path) = some loc)
    (h2 : locationKey (filterCandidates f.target f.referralCandidates) loc = some (v, ms))
    (h3 : matchesByName (filterCandidates f.target f.referralCandidates) v = []) :
    applyFilter f doc = .ok doc := by
  unfold applyFilter
  rw [resolveAtPath_found _ _ doc loc h1]
  rw [resolveLocation_no_match _ loc v ms h2 h3]
  simp [Except.map, replaceAt_self _ doc loc h1]

/-- Witness for C3: the reference value `otherName` matches no candidate of
the simple-scalar registry, and the document comes back untouched. -/
theorem zero_match_no_op_witness :
    matchesByName (filterCandidates scalarFilter.target
      scalarFilter.referralCandidates) "otherName" = [] ∧
    applyFilter scalarFilter noMatchDoc = .ok noMatchDoc :=
  ⟨rfl, zero_match_no_op scalarFilter noMatchDoc (.scalar "otherName") "otherName"
    [] rfl rfl rfl⟩

/-- C4: for a path addressing a sequence, each element is resolved
independently: the output sequence has the same length, every output
element is the resolution of the input element at the same index alone, an
element matching exactly one candidate is rewritten to the candidate's
current name, and an element matching no candidate is left byte-for-byte
identical. -/
theorem sequence_elements_independent (f : Filter) (doc out : Node) (es : List Node)
    (h1 : lookupPath doc (splitPath f.fieldSpec.path) = some (.seq es))
    (h2 : applyFilter f doc = .ok out) :
    ∃ es', lookupPath out (splitPath f.fieldSpec.path) = some (.seq es') ∧
      es'.length = es.length ∧
      (∀ i (hi : i < es.length) (hi' : i < es'.length),
        resolveSeqElem (filterCandidates f.target f.referralCandidates)
          (es.get ⟨i, hi⟩) = .ok (es'.get ⟨i, hi'⟩)) ∧
      (∀ i (hi : i < es.length) (hi' : i < es'.length) (w : String) (c : Candidate),
        es.get ⟨i, hi⟩ = .scalar w →
        matchesByName (filterCandidates f.target f.referralCandidates) w = [c] →
        es'.get ⟨i, hi'⟩ = .scalar c.curName) ∧
      (∀ i (hi : i < es.length) (hi' : i < es'.length) (w : String),
        es.get ⟨i, hi⟩ = .scalar w →
        matchesByName (filterCandidates f.target f.referralCandidates) w = [] →
        es'.get ⟨i, hi'⟩ = .scalar w) := by
  unfold applyFilter at h2
  rw [resolveAtPath_found _ _ doc (.seq es) h1] at h2
  cases hl : resolveLocation (filterCandidates f.target f.referralCandidates)
      (.seq es) with
  | error e => rw [hl] at h2; simp [Except.map] at h2
  | ok loc' =>
    rw [hl] at h2
    simp only [Except.map, Except.ok.injEq] at h2
    simp only [resolveLocation] at hl
    cases hs : resolveSeq (filterCandidates f.target f.referralCandidates) es with
    | error e => rw [hs] at hl; simp [Except.map] at hl
    | ok es' =>
      rw [hs] at hl
      simp only [Except.map, Except.ok.injEq] at hl
      obtain ⟨hlen, helem⟩ :=
        resolveSeq_ok (filterCandidates f.target f.referralCandidates) es es' hs
      refine ⟨es', ?_, hlen, helem, ?_, ?_⟩
      · rw [← h2, ← hl]
        exact lookupPath_replaceAt _ doc (.seq es) (.seq es') h1
      · intro i hi hi' w c hw hm
        have he := helem i hi hi'
        rw [hw] at he
        simp only [resolveSeqElem, resolveScalar, hm, Except.map,
          Except.ok.injEq] at he
        exact he.symm
      · intro i hi hi' w hw hm
        have he := helem i hi hi'
        rw [hw] at he
        simp only [resolveSeqElem, resolveScalar, hm, Except.map,
          Except.ok.injEq] at he
        exact he.symm

/-- Witness for C4: the sequence test case — `oldName1` is rewritten to
`newName`, its sibling `oldName2` is untouched. -/
theorem sequence_elements_independent_witness :
    applyFilter seqFilter seqDoc = .ok seqDocExpected ∧
    (∃ es', lookupPath seqDocExpected (splitPath seqFilter.fieldSpec.path) =
        some (.seq es') ∧ es'.length = 2) := by
  refine ⟨rfl, ?_⟩
  obtain ⟨es', hfound, hlen, _, _, _⟩ :=
    sequence_elements_independent seqFilter seqDoc seqDocExpected
      [.scalar "oldName1", .scalar "oldName2"] rfl rfl
  exact ⟨es', hfound, hlen.trans rfl⟩

/-- C5: for a path addressing a mapping with scalar `name` and `namespace`
children whose pair equals the original identity of exactly one
type-matching candidate, the call succeeds, the `name` child is rewritten
to the candidate's current name, the `namespace` child to the candidate's
current namespace — which is the original namespace value, hence unchanged,
whenever the candidate's namespace did not change. -/
theorem mapping_namespace_rewrite (f : Filter) (doc : Node)
    (fields : List (String × Node)) (n ns : String) (c : Candidate)
    (h1 : lookupPath doc (splitPath f.fieldSpec.path) = some (.map fields))
    (h2 : lookupField fields "name" = some (.scalar n))
    (h3 : lookupField fields "namespace" = some (.scalar ns))
    (h4 : matchesByFullName (filterCandidates f.target f.referralCandidates) n ns = [c]) :
    applyFilter f doc = .ok (replaceAt doc (splitPath f.fieldSpec.path)
      (.map (setField (setField fields "name" (.scalar c.curName))
        "namespace" (.scalar c.curNamespace)))) ∧
    lookupField (setField (setField fields "name" (.scalar c.curName))
      "namespace" (.scalar c.curNamespace)) "name" = some (.scalar c.curName) ∧
    lookupField (setField (setField fields "name" (.scalar c.curName))
      "namespace" (.scalar c.curNamespace)) "namespace" =
        some (.scalar c.curNamespace) ∧
    (c.curNamespace = c.origNamespace →
      lookupField (setField (setField fields "name" (.scalar c.curName))
        "namespace" (.scalar c.curNamespace)) "namespace" = some (.scalar ns)) := by
  have hnsfst : lookupField (setField fields "name" (.scalar c.curName))
      "namespace" = some (.scalar ns) := by
    rw [lookupField_setField_ne "name" "namespace" (.scalar c.curName)
      (by decide) fields]
    exact h3
  have hname : lookupField (setField (setField fields "name" (.scalar c.curName))
      "namespace" (.scalar c.curNamespace)) "name" = some (.scalar c.curName) := by
    rw [lookupField_setField_ne "namespace" "name" (.scalar c.curNamespace)
      (by decide) _]
    exact lookupField_setField_eq "name" (.scalar c.curName) fields (.scalar n) h2
  have hnames : lookupField (setField (setField fields "name" (.scalar c.curName))
      "namespace" (.scalar c.curNamespace)) "namespace" =
        some (.scalar c.curNamespace) :=
    lookupField_setField_eq "namespace" (.scalar c.curNamespace) _ (.scalar ns) hnsfst
  have horig : c.origNamespace = ns := by
    have hc : c ∈ matchesByFullName (filterCandidates f.target f.referralCandidates)
        n ns := by
      rw [h4]
      exact List.mem_singleton.mpr rfl
    unfold matchesByFullName at hc
    have := (List.mem_filter.mp hc).2
    simp only [Bool.and_eq_true, decide_eq_true_eq] at this
    exact this.2
  refine ⟨?_, hname, hnames, ?_⟩
  · unfold applyFilter
    rw [resolveAtPath_found _ _ doc (.map fields) h1]
    have hres : resolveMapping (filterCandidates f.target f.referralCandidates)
        fields = .ok (setField (setField fields "name" (.scalar c.curName))
          "namespace" (.scalar c.curNamespace)) := by
      unfold resolveMapping
      rw [h2, h3]
      simp only [Option.bind, Node.scalarVal, h4]
    simp only [resolveLocation, hres, Except.map]
  · intro hcur
    rw [hnames, hcur, horig]

/-- Witness for C5: the mapping-with-namespace test case — the unique
pair match rewrites `name` to `newName` and leaves `namespace` at `oldNs`,
the candidate's namespace being unchanged. -/
theorem mapping_namespace_rewrite_witness :
    applyFilter nsMapFilter nsMapDoc = .ok nsMapDocExpected ∧
    lookupField (setField (setField
      [("name", Node.scalar "oldName"), ("namespace", Node.scalar "oldNs")]
      "name" (.scalar nsSecretCandidate.curName))
      "namespace" (.scalar nsSecretCandidate.curNamespace)) "namespace" =
        some (.scalar "oldNs") := by
  obtain ⟨ha, _, _, hd⟩ := mapping_namespace_rewrite nsMapFilter nsMapDoc
    [("name", Node.scalar "oldName"), ("namespace", Node.scalar "oldNs")]
    "oldName" "oldNs" nsSecretCandidate rfl rfl rfl rfl
  exact ⟨ha, hd rfl⟩

/-- C6 (counterexample): two nodes of the claim's class — neither scalar
string, nor sequence of scalar strings, nor mapping with a `name` key —
fail with errors other than the prescribed shape message. The no-name
test's mapping fails with the distinct missing-name-field error, and a
sequence mixing a doubly-claimed scalar with a null element fails with the
ambiguity error of its first element; both rendered messages differ from
the shape form. -/
theorem shape_error_message_counterexample :
    (lookupPath noNameDoc (splitPath noNameFilter.fieldSpec.path) =
      some (.map [("notName", Node.scalar "oldName")]) ∧
    lookupField [("notName", Node.scalar "oldName")] "name" = none ∧
    applyFilter noNameFilter noNameDoc = .error .missingNameField ∧
    errorMessage noNameFilter.referrerId noNameFilter.fieldSpec.path
        .missingNameField ≠
      errorMessage noNameFilter.referrerId noNameFilter.fieldSpec.path .badShape) ∧
    (lookupPath hetSeqDoc (splitPath hetSeqFilter.fieldSpec.path) =
      some (.seq [.scalar "oldName", .null]) ∧
    applyFilter hetSeqFilter hetSeqDoc =
      .error (.ambiguous "oldName" [secretCandidate, secondSecretCandidate]) ∧
    errorMessage hetSeqFilter.referrerId hetSeqFilter.fieldSpec.path
        (.ambiguous "oldName" [secretCandidate, secondSecretCandidate]) ≠
      errorMessage hetSeqFilter.referrerId hetSeqFilter.fieldSpec.path .badShape) :=
  ⟨⟨rfl, rfl, rfl, by decide⟩, ⟨rfl, rfl, by decide⟩⟩

/-- C6 (amended): for every addressed node that exists but is neither a
scalar string, a sequence of scalar strings, nor a mapping — a null value
at the path, or a sequence holding a non-scalar element whose preceding
elements are scalars matching at most one candidate each (so no other
failure intervenes first) — resolution fails with the shape error,
rendered exactly as
`obj [q]<referrer-id>[q] at path [q]<path>[q]: node is expected to be either a
string or a slice of string or a map of string` (with `[q]` the apostrophe
and the referrer identity empty when unset); a mapping without a `name`
child instead fails with the distinct missing-name-field error. -/
theorem bad_shape_location_error (f : Filter) (doc loc : Node)
    (h1 : lookupPath doc (splitPath f.fieldSpec.path) = some loc)
    (h2 : loc = .null ∨
      ∃ es, loc = .seq es ∧ ∃ i, ∃ hi : i < es.length,
        (es.get ⟨i, hi⟩).scalarVal = none ∧
        ∀ j (hj : j < i), ∃ w,
          es.get ⟨j, Nat.lt_trans hj hi⟩ = Node.scalar w ∧
          (matchesByName (filterCandidates f.target f.referralCandidates)
            w).length ≤ 1) :
    applyFilter f doc = .error .badShape ∧
    errorMessage f.referrerId f.fieldSpec.path .badShape =
      "obj " ++ sq ++ f.referrerId ++ sq ++ " at path " ++ sq ++
        f.fieldSpec.path ++ sq ++ ": " ++ shapeErrorTrailer := by
  refine ⟨?_, rfl⟩
  unfold applyFilter
  rw [resolveAtPath_found _ _ doc loc h1]
  rcases h2 with h2 | ⟨es, hloc, i, hi, hnot, hpre⟩
  · subst h2
    rfl
  · subst hloc
    have hs := resolveSeq_badShape (filterCandidates f.target f.referralCandidates)
      es i hi hnot hpre
    simp [resolveLocation, hs, Except.map]

/-- Witness for C6: the invalid-node-type test case — `ref/name` holds a
null value, resolution fails with the shape error, and the rendered
message is character for character the string the test expects; a
sequence mixing an unclaimed scalar with a null element fails with the
same shape error. -/
theorem bad_shape_location_error_witness :
    applyFilter hetSeqFilter noAmbSeqDoc = .error .badShape ∧
    applyFilter nullFilter nullDoc = .error .badShape ∧
    errorMessage nullFilter.referrerId nullFilter.fieldSpec.path .badShape =
      String.mk
      [ 'o', 'b', 'j', ' ', Char.ofNat 39, Char.ofNat 39, ' ', 'a', 't',
       ' ', 'p', 'a', 't', 'h', ' ', Char.ofNat 39, 'r', 'e', 'f', '/', 'n',
       'a', 'm', 'e', Char.ofNat 39, ':', ' ', 'n', 'o', 'd', 'e', ' ', 'i',
       's', ' ', 'e', 'x', 'p', 'e', 'c', 't', 'e', 'd', ' ', 't', 'o', ' ',
       'b', 'e', ' ', 'e', 'i', 't', 'h', 'e', 'r', ' ', 'a', ' ', 's', 't',
       'r', 'i', 'n', 'g', ' ', 'o', 'r', ' ', 'a', ' ', 's', 'l', 'i', 'c',
       'e', ' ', 'o', 'f', ' ', 's', 't', 'r', 'i', 'n', 'g', ' ', 'o', 'r',
       ' ', 'a', ' ', 'm', 'a', 'p', ' ', 'o', 'f', ' ', 's', 't', 'r', 'i',
       'n', 'g'] := by
  have hseq := bad_shape_location_error hetSeqFilter noAmbSeqDoc
    (.seq [.scalar "unmatched", .null]) rfl
    (Or.inr ⟨[.scalar "unmatched", .null], rfl, 1, by decide, rfl, by
      intro j hj
      have hj0 : j = 0 := Nat.lt_one_iff.mp hj
      subst hj0
      exact ⟨"unmatched", rfl, by decide⟩⟩)
  have hnull := bad_shape_location_error nullFilter nullDoc .null rfl (Or.inl rfl)
  exact ⟨hseq.1, hnull.1, by decide⟩

/-- C7: for every path addressing a mapping without a `name` child,
resolution fails with the missing-name-field error rather than succeeding
as a no-op; no sibling key such as `notName` is ever matched in place of
`name`, since the quantification covers every name-less mapping. -/
theorem missing_name_field_fatal (f : Filter) (doc : Node)
    (fields : List (String × Node))
    (h1 : lookupPath doc (splitPath f.fieldSpec.path) = some (.map fields))
    (h2 : lookupField fields "name" = none) :
    applyFilter f doc = .error .missingNameField := by
  unfold applyFilter
  rw [resolveAtPath_found _ _ doc (.map fields) h1]
  have hres : resolveMapping (filterCandidates f.target f.referralCandidates)
      fields = .error .missingNameField := by
    unfold resolveMapping
    rw [h2]
    rfl
  simp only [resolveLocation, hres, Except.map]

/-- Witness for C7: the no-name test case — the mapping carries only a
`notName` child and the call fails with the missing-name-field error. -/
theorem missing_name_field_fatal_witness :
    lookupField [("notName", Node.scalar "oldName")] "notName" =
      some (.scalar "oldName") ∧
    lookupField [("notName", Node.scalar "oldName")] "name" = none ∧
    applyFilter noNameFilter noNameDoc = .error .missingNameField :=
  ⟨rfl, rfl, missing_name_field_fatal noNameFilter noNameDoc
    [("notName", Node.scalar "oldName")] rfl rfl⟩

/-- C10: for every path addressing a mapping without a `name` child, the
missing-name failure is reported whatever the candidate registry holds —
in particular even when two or more type-matching candidates share an
original name — and never the ambiguity error: the structural check is not
bypassed by candidate matching. -/
theorem missing_name_not_bypassed_by_ambiguity (f : Filter) (doc : Node)
    (fields : List (String × Node)) (v : String)
    (h1 : lookupPath doc (splitPath f.fieldSpec.path) = some (.map fields))
    (h2 : lookupField fields "name" = none)
    (h3 : 2 ≤ (matchesByName (filterCandidates f.target f.referralCandidates)
      v).length) :
    applyFilter f doc = .error .missingNameField ∧
    ∀ (w : String) (ms : List Candidate),
      applyFilter f doc ≠ .error (.ambiguous w ms) := by
  have hmain : applyFilter f doc = .error .missingNameField := by
    unfold applyFilter
    rw [resolveAtPath_found _ _ doc (.map fields) h1]
    have hres : resolveMapping (filterCandidates f.target f.referralCandidates)
        fields = .error .missingNameField := by
      unfold resolveMapping
      rw [h2]
      rfl
    simp only [resolveLocation, hres, Except.map]
  refine ⟨hmain, ?_⟩
  intro w ms hcontra
  rw [hmain] at hcontra
  simp at hcontra

/-- Witness for C10: the no-name test case — the registry holds two Secrets
sharing the original name `oldName`, yet the failure is the missing-name
error, not ambiguity. -/
theorem missing_name_not_bypassed_witness :
    2 ≤ (matchesByName (filterCandidates noNameFilter.target
      noNameFilter.referralCandidates) "oldName").length ∧
    applyFilter noNameFilter noNameDoc = .error .missingNameField ∧
    applyFilter noNameFilter noNameDoc ≠
      .error (.ambiguous "oldName" [secretCandidate, secondSecretCandidate]) := by
  obtain ⟨ha, hb⟩ := missing_name_not_bypassed_by_ambiguity noNameFilter noNameDoc
    [("notName", Node.scalar "oldName")] "oldName" rfl rfl (by decide)
  exact ⟨by decide, ha, hb "oldName" [secretCandidate, secondSecretCandidate]⟩

/-- C8: the outcome of resolution — every successful output document and
the success-versus-failure decision — is invariant under any permutation
of the candidate registry. -/
theorem candidate_order_invariant (f1 f2 : Filter) (doc : Node)
    (htarget : f1.target = f2.target)
    (hpath : f1.fieldSpec.path = f2.fieldSpec.path)
    (hperm : f1.referralCandidates.Perm f2.referralCandidates) :
    (∀ out, applyFilter f1 doc = .ok out ↔ applyFilter f2 doc = .ok out) ∧
    ((∃ e, applyFilter f1 doc = .error e) ↔ ∃ e, applyFilter f2 doc = .error e) := by
  have hcs : (filterCandidates f1.target f1.referralCandidates).Perm
      (filterCandidates f2.target f2.referralCandidates) := by
    rw [htarget]
    exact hperm.filter _
  have hfwd : ∀ out, applyFilter f1 doc = .ok out → applyFilter f2 doc = .ok out := by
    intro out h
    unfold applyFilter at h ⊢
    rw [← hpath]
    exact resolveAtPath_perm hcs _ doc out h
  have hbwd : ∀ out, applyFilter f2 doc = .ok out → applyFilter f1 doc = .ok out := by
    intro out h
    unfold applyFilter at h ⊢
    rw [← hpath] at h
    exact resolveAtPath_perm hcs.symm _ doc out h
  refine ⟨fun out => ⟨hfwd out, hbwd out⟩, ?_, ?_⟩
  · rintro ⟨e, he⟩
    cases h2 : applyFilter f2 doc with
    | error e2 => exact ⟨e2, rfl⟩
    | ok out =>
      rw [hbwd out h2] at he
      simp at he
  · rintro ⟨e, he⟩
    cases h1 : applyFilter f1 doc with
    | error e1 => exact ⟨e1, rfl⟩
    | ok out =>
      rw [hfwd out h1] at he
      simp at he

/-- Witness for C8: reversing the simple-scalar test's candidate list
leaves the successful outcome identical. -/
theorem candidate_order_invariant_witness :
    scalarFilter.referralCandidates.Perm scalarFilterSwapped.referralCandidates ∧
    (applyFilter scalarFilter scalarDoc = .ok scalarDocExpected ↔
      applyFilter scalarFilterSwapped scalarDoc = .ok scalarDocExpected) :=
  ⟨List.Perm.swap notSecretCandidate secretCandidate [],
    (candidate_order_invariant scalarFilter scalarFilterSwapped scalarDoc rfl rfl
      (List.Perm.swap notSecretCandidate secretCandidate [])).1 scalarDocExpected⟩

/-- C9: every invocation either succeeds as a whole — the caller observes
exactly the mutated document — or fails with one of the three fatal error
kinds, and the referrer observed by the caller is its unchanged pre-call
state; there is no partially rewritten outcome. -/
theorem no_partial_mutation (f : Filter) (doc : Node) :
    (∃ out, applyFilter f doc = .ok out ∧
      observedReferrer doc (applyFilter f doc) = out) ∨
    (∃ e, applyFilter f doc = .error e ∧
      (e = .badShape ∨ e = .missingNameField ∨ ∃ v ms, e = .ambiguous v ms) ∧
      observedReferrer doc (applyFilter f doc) = doc) := by
  cases h : applyFilter f doc with
  | ok out => exact Or.inl ⟨out, rfl, rfl⟩
  | error e =>
    refine Or.inr ⟨e, rfl, ?_, rfl⟩
    cases e with
    | badShape => exact Or.inl rfl
    | missingNameField => exact Or.inr (Or.inl rfl)
    | ambiguous v ms => exact Or.inr (Or.inr ⟨v, ms, rfl⟩)

end Nameref
